import Mathlib

set_option maxRecDepth 4000

/-!
# Verification of the fuzzy-deduper pipeline

Shallow embedding of `src/fuzzy_deduper/fuzzy_deduper.py` and
`src/unnamed/unnamed.py`: a duplicate-function finder that extracts
function token spans from Python files, encodes them as shape strings,
and reports pairs whose edit-distance similarity passes a threshold
and a significance filter.

Python `tokenize` token records are modelled by `TokenInfo` (category
number, literal text, starting line).  Token category numbers follow the
CPython `token` module: 1 = NAME, 4 = NEWLINE, 5 = INDENT, 6 = DEDENT,
54 = OP.
-/

/-- A lexical token record, mirroring the fields of Python
`tokenize.TokenInfo` that the program reads: `type` (category number),
`string` (literal spelling) and the starting line `start[0]`. -/
structure TokenInfo where
  type : Nat
  string : String
  startLine : Nat
deriving DecidableEq, Repr

/-- The keyword-to-symbol table `KW_DICT` of `fuzzy_deduper.py`
(lines 32-38), an association list from reserved-keyword text to its
dedicated shape symbol. -/
def KW_DICT : List (String × Char) :=
  [("and", 'Ұ'), ("del", 'ұ'), ("from", 'Ҳ'), ("not", 'ҳ'), ("while", 'Ҵ'),
   ("as", 'ҵ'), ("elif", 'Ҷ'), ("global", 'ҷ'), ("or", 'Ҹ'), ("with", 'ҹ'),
   ("assert", 'Һ'), ("else", 'һ'), ("if", 'Ҽ'), ("pass", 'ҽ'), ("yield", 'Ҿ'),
   ("break", 'ҿ'), ("except", 'Ӏ'), ("import", 'Ӂ'), ("print", 'ӂ'),
   ("class", 'Ӄ'), ("exec", 'ӄ'), ("in", 'Ӆ'), ("raise", 'ӆ'), ("continue", 'Ӈ'),
   ("finally", 'ӈ'), ("is", 'Ӊ'), ("return", 'ӊ'), ("def", 'Ӌ'), ("for", 'ӌ'),
   ("lambda", 'Ӎ'), ("try", 'ӎ')]

/-- Python `KW_DICT[s]` / `s in KW_DICT` as an optional lookup. -/
def kwLookup (s : String) : Option Char :=
  KW_DICT.lookup s

/-- The cost structure used by the similarity metric: unit-cost insertion
and deletion, cost-2 substitution (cost 0 on equal symbols). -/
def dedupCost : Levenshtein.Cost Char Char ℕ :=
  { delete := fun _ => 1
    insert := fun _ => 1
    substitute := fun a b => if a = b then 0 else 2 }

/-- Weighted edit distance between two symbol lists under `dedupCost`. -/
def editDist (a b : List Char) : ℕ :=
  levenshtein dedupCost a b

/-- Modelled from the spec: the Similarity Scorer (the call to
`fuzz.ratio` from the third-party `fuzzywuzzy` library, whose code is
not part of this repository).  Per the spec (§4.3): let
`T = len(a) + len(b)` and `D` the weighted edit distance with unit-cost
insertion/deletion and cost-2 substitution; the similarity is
`round(100 * (T - D) / T)` for `T > 0` and `100` when both strings are
empty.  Implemented here on naturals as round-half-up,
`(200*(T-D) + T) / (2*T)`; the equivalence with the rational `round`
formula is proved in `fuzz_ratio_eq_round`. -/
def fuzz_ratio (a b : String) : ℕ :=
  let T := a.length + b.length
  if T = 0 then 100
  else (200 * (T - editDist a.toList b.toList) + T) / (2 * T)

/-- Per-token symbol of `create_token_type_word` (fuzzy_deduper.py lines
93-97): a NAME token (type 1) whose text is a reserved keyword gets the
keyword's dedicated symbol from `KW_DICT`; every other token gets the
character of its category number, Python `chr(token.type)`. -/
def tokenChar (t : TokenInfo) : Char :=
  if t.type = 1 then
    match kwLookup t.string with
    | some c => c
    | none => Char.ofNat t.type
  else Char.ofNat t.type

/-- `create_token_type_word` (fuzzy_deduper.py lines 86-98): the shape
string of a token sequence, one symbol per token. -/
def create_token_type_word (tokens : List TokenInfo) : String :=
  String.mk (tokens.map tokenChar)

/-- `count_keywords` (fuzzy_deduper.py lines 101-107): the number of
tokens whose text is a `KW_DICT` key (the token's type is not checked
here, unlike in `create_token_type_word`). -/
def count_keywords (function_tokens : List TokenInfo) : Nat :=
  function_tokens.countP (fun t => (kwLookup t.string).isSome)

/-- The state variable of `parse_function_header`. -/
inductive HeaderState
  | start
  | name
  | args
  | skip
  | skip_parenthesis
deriving DecidableEq, Repr

/-- Loop of `parse_function_header` (fuzzy_deduper.py lines 117-142),
carrying the accumulated `name`, `args` and `state`. `none` models the
Python function running off the end of the loop and returning `None`. -/
def parse_function_header_go (name : String) (args : List String)
    (state : HeaderState) : List TokenInfo → Option (String × List String)
  | [] => none
  | t :: rest =>
    if t.string = "def" then
      parse_function_header_go name args .name rest
    else if state = .skip_parenthesis then
      if t.string = ")" then parse_function_header_go name args .args rest
      else parse_function_header_go name args state rest
    else if state = .skip then
      if t.string = "(" then parse_function_header_go name args .skip_parenthesis rest
      else parse_function_header_go name args .args rest
    else if state = .name then
      parse_function_header_go t.string args .args rest
    else if t.string = "\n" ∨ t.string = "(" ∨ t.string = "," then
      parse_function_header_go name args state rest
    else if t.string = ":" ∨ t.string = "=" then
      parse_function_header_go name args .skip rest
    else if t.string = ")" then
      some (name, args)
    else
      parse_function_header_go name (args ++ [t.string]) state rest

/-- `parse_function_header` (fuzzy_deduper.py lines 110-142; the
unnamed.py copy at lines 96-121 is identical except that its final
`return None` is Python's implicit one). -/
def parse_function_header (function_tokens : List TokenInfo) :
    Option (String × List String) :=
  parse_function_header_go "" [] .start function_tokens

/-- `TokenizedFunction` of fuzzy_deduper.py: one extracted function with
its derived header fields and keyword count. -/
structure TokenizedFunction where
  file_url : String
  line : Nat
  name : String
  args : List String
  kw_count : Nat
  tokens : List TokenInfo
deriving DecidableEq, Repr

/-- `TokenizedFunction.__init__` (fuzzy_deduper.py lines 12-20).  When
`parse_function_header` returns `None`, the Python subscripts
`parsed_header[0]` raise `TypeError`, modelled as `.error`; the record
is only produced when the header parses. -/
def mkTokenizedFunction (file_url : String) (def_token : TokenInfo)
    (parsed_tokens : List TokenInfo) : Except String TokenizedFunction :=
  match parse_function_header parsed_tokens with
  | none => .error "TypeError: NoneType object is not subscriptable"
  | some (n, a) =>
    .ok { file_url := file_url
          line := def_token.startLine
          name := n
          args := a
          kw_count := count_keywords parsed_tokens
          tokens := parsed_tokens }

/-- `TokenizedFunction.similarity_ratio` (fuzzy_deduper.py lines 22-29):
the scorer applied to the two shape strings. -/
def TokenizedFunction.similarity_ratio (self other : TokenizedFunction) : Nat :=
  fuzz_ratio (create_token_type_word self.tokens) (create_token_type_word other.tokens)

/-- The loop state of `parse_functions` (fuzzy_deduper.py lines 59-83):
`indent` is the Python `indent` variable (an `Int`, since the sentinel
"function keyword seen, body not yet open" is `-1`), `def_token` the
anchor token (unassigned before the first `def`), `parsed_tokens` the
current buffer, `functions` the records emitted so far. -/
structure PFState where
  indent : Int
  def_token : Option TokenInfo
  parsed_tokens : List TokenInfo
  functions : List TokenizedFunction

/-- The `if/elif` chain of the `parse_functions` loop body
(fuzzy_deduper.py lines 66-75; unnamed.py lines 20-29 are identical)
that updates `indent` and anchors a new function on `def` at depth 0. -/
def pfIndentStep (st : PFState) (t : TokenInfo) : PFState :=
  if st.indent = 0 ∧ t.string = "def" then
    { st with def_token := some t, parsed_tokens := [], indent := -1 }
  else if st.indent = -1 ∧ t.type = 5 then { st with indent := 2 }
  else if st.indent > 1 ∧ t.type = 6 then { st with indent := st.indent - 1 }
  else if st.indent > 1 ∧ t.type = 5 then { st with indent := st.indent + 1 }
  else st

/-- One iteration of the `parse_functions` loop body (fuzzy_deduper.py
lines 66-82): the `if/elif` chain (`pfIndentStep`), then the close check
that finalizes a record, then the buffering append.  `.error` models an
uncaught Python exception. -/
def pfStep (url : String) (st : PFState) (t : TokenInfo) : Except String PFState :=
  let st1 := pfIndentStep st t
  if st1.indent = 1 ∧ t.type = 6 then
    match st1.def_token with
    | none => .error "NameError: def_token referenced before assignment"
    | some d =>
      let parsed := st1.parsed_tokens ++ [t]
      match mkTokenizedFunction url d parsed with
      | .error e => .error e
      | .ok fn =>
          .ok { st1 with
                indent := 0
                parsed_tokens := parsed
                functions := st1.functions ++ [fn] }
  else if st1.indent > 0 ∨ st1.indent = -1 then
    .ok { st1 with parsed_tokens := st1.parsed_tokens ++ [t] }
  else
    .ok st1

/-- `parse_functions` (fuzzy_deduper.py lines 59-83): fold the loop body
over the file's token stream, starting outside any function.  The token
stream itself comes from the external `tokenize` module. -/
def parse_functions (url : String) (tokens : List TokenInfo) :
    Except String (List TokenizedFunction) :=
  (tokens.foldlM (pfStep url) ⟨0, none, [], []⟩).map PFState.functions

/-- `load_functions` (fuzzy_deduper.py lines 41-56).  Directory walking,
file reading and tokenization are external; a file is modelled as its
url together with either its token stream or the read/tokenize
exception it raises (`.error`).  The Python has no `try/except`, so the
first failing file propagates its exception and aborts the whole scan;
the fold in the `Except` monad models exactly that. -/
def load_functions (files : List (String × Except String (List TokenInfo))) :
    Except String (List TokenizedFunction) :=
  files.foldlM (fun acc file => do
    let toks ← file.2
    let fs ← parse_functions file.1 toks
    pure (acc ++ fs)) []

/-- One reported match: the newly seen function, the previously seen
function it matched, and their similarity (the three things
`find_duplicates` prints per hit). -/
structure MatchReport where
  newFn : TokenizedFunction
  oldFn : TokenizedFunction
  similarity : Nat
deriving DecidableEq, Repr

/-- The body of the inner loop of `find_duplicates` (fuzzy_deduper.py
lines 155-165): emit a report for prior record `func` iff the
similarity and both keyword counts pass. -/
def emitMatch (min_similarity min_kw_count : Nat)
    (afunction func : TokenizedFunction) : Option MatchReport :=
  let similarity := afunction.similarity_ratio func
  if min_similarity ≤ similarity ∧ min_kw_count ≤ func.kw_count ∧
      min_kw_count ≤ afunction.kw_count then
    some ⟨afunction, func, similarity⟩
  else none

/-- The shared scanning loop of both `find_duplicates` variants: for each
newly ingested record, emit over the records seen so far, then append
the new record to `seen`.  In Python `seen` is a `set()`, but the stored
class defines neither `__eq__` nor `__hash__`, so membership is object
identity and every added record stays a distinct element; the
accumulation is therefore modelled as the insertion-ordered list of
previously seen records. -/
def scanPairs {A M : Type} (emit : A → A → Option M)
    (seen : List A) : List A → List M
  | [] => []
  | f :: rest => seen.filterMap (emit f) ++ scanPairs emit (seen ++ [f]) rest

/-- `find_duplicates` (fuzzy_deduper.py lines 145-166), returning the
sequence of reports it prints. -/
def find_duplicates (tokenized_functions : List TokenizedFunction)
    (min_similarity min_kw_count : Nat) : List MatchReport :=
  scanPairs (emitMatch min_similarity min_kw_count) [] tokenized_functions

namespace Unnamed

/-- The control-flow keyword set of `filter_flow_tokens`
(unnamed.py line 72). -/
def allowed : List String :=
  ["with", "for", "if", "elif", "while", "return", "in", "try", "except"]

/-- `filter_flow_tokens` (unnamed.py lines 71-77): keep only tokens whose
text is a control-flow keyword. -/
def filter_flow_tokens (function_tokens : List TokenInfo) : List TokenInfo :=
  function_tokens.filter (fun t => t.string ∈ allowed)

/-- The digit dictionary of `tokens_to_chars` (unnamed.py lines 82-90). -/
def flowDict : List (String × Char) :=
  [("with", '0'), ("for", '1'), ("if", '2'), ("elif", '3'), ("while", '4'),
   ("return", '5'), ("in", '6'), ("try", '7'), ("except", '8')]

/-- `tokens_to_chars` (unnamed.py lines 80-93): concatenate the digit of
each token's text.  A missing key would raise `KeyError` in Python; that
is unreachable for the output of `filter_flow_tokens`, and is modelled by
the `'\x00'` fallback. -/
def tokens_to_chars (filtered_tokens : List TokenInfo) : String :=
  String.mk (filtered_tokens.map fun t => (flowDict.lookup t.string).getD (Char.ofNat 0))

/-- `TokenizedFunction` of unnamed.py (lines 40-68): stores the
control-flow-only shape string `flow_word` instead of a keyword count. -/
structure TokenizedFunction where
  file_url : String
  line : Nat
  name : String
  args : List String
  flow_word : String
deriving DecidableEq, Repr

/-- `TokenizedFunction.__init__` (unnamed.py lines 42-49); as in the
other variant, an unparsable header makes Python subscript `None` and
raise `TypeError`, modelled as `.error`. -/
def mkTokenizedFunction (file_url : String) (def_token : TokenInfo)
    (parsed_tokens : List TokenInfo) : Except String TokenizedFunction :=
  match parse_function_header parsed_tokens with
  | none => .error "TypeError: NoneType object is not subscriptable"
  | some (n, a) =>
    .ok { file_url := file_url
          line := def_token.startLine
          name := n
          args := a
          flow_word := tokens_to_chars (filter_flow_tokens parsed_tokens) }

/-- `TokenizedFunction.similarity_ratio` (unnamed.py lines 59-60): the
scorer applied to the stored control-flow words. -/
def TokenizedFunction.similarity_ratio (self other : TokenizedFunction) : Nat :=
  fuzz_ratio self.flow_word other.flow_word

/-- One reported match of unnamed.py's `find_duplicates`. -/
structure MatchReport where
  newFn : TokenizedFunction
  oldFn : TokenizedFunction
  similarity : Nat
deriving DecidableEq, Repr

/-- The body of the inner loop of `find_duplicates` (unnamed.py lines
127-133): the similarity/flow-length test, then the nested check that
only the NEW function's name differs from `__init__` (the prior
function's name is not checked). -/
def emitMatch (minimum : Nat) (function func : TokenizedFunction) :
    Option MatchReport :=
  if minimum ≤ function.similarity_ratio func ∧ 8 < function.flow_word.length ∧
      8 < func.flow_word.length then
    if function.name ≠ "__init__" then
      some ⟨function, func, function.similarity_ratio func⟩
    else none
  else none

/-- `find_duplicates` (unnamed.py lines 124-134), returning the sequence
of reports it prints; the `seen` set accumulates by object identity as
in the other variant. -/
def find_duplicates (tokenized_functions : List TokenizedFunction)
    (minimum : Nat) : List MatchReport :=
  scanPairs (emitMatch minimum) [] tokenized_functions

/-- `main` (unnamed.py lines 137-143), modelled over an already-loaded
corpus (directory walking and `sys.argv` are external I/O).  `argv` is
the full `sys.argv` including the script name; with a single positional
argument the threshold defaults to `75`; `none` models printing the
usage message (or `int()` failing). -/
def main (argv : List String) (corpus : List TokenizedFunction) :
    Option (List MatchReport) :=
  match argv with
  | [_, _, m] => (m.toNat?).map (find_duplicates corpus)
  | [_, _] => some (find_duplicates corpus 75)
  | _ => none

end Unnamed

/-- Pointwise relation "same token category/keyword structure": equal
category numbers, and when the category is NAME (type 1) the same
keyword lookup (so identifier and literal spellings may differ freely). -/
def sameShapeTok (t t' : TokenInfo) : Prop :=
  t.type = t'.type ∧ (t.type = 1 → kwLookup t.string = kwLookup t'.string)

instance (t t' : TokenInfo) : Decidable (sameShapeTok t t') := by
  unfold sameShapeTok
  infer_instance

/-- The Duplicate Scanner contract, written from the spec's words (C1):
for each newly ingested record `f` (position `i`, in discovery order),
compare `f` against exactly the records ingested strictly before it
(`fs.take i` — never itself, never records not yet ingested) and emit
`(f, g, similarity)` for each prior `g` with `similarity(f,g) >=
min_similarity` and the keyword-count filter passing for both. -/
def spec_scan_matches (fs : List TokenizedFunction)
    (min_similarity min_kw_count : Nat) : List MatchReport :=
  (List.range fs.length).flatMap fun i =>
    match fs[i]? with
    | some f =>
      (fs.take i).filterMap fun g =>
        if min_similarity ≤ f.similarity_ratio g ∧
            min_kw_count ≤ f.kw_count ∧ min_kw_count ≤ g.kw_count then
          some ⟨f, g, f.similarity_ratio g⟩
        else none
    | none => []

/-- The flow-length scanner contract as amended (C5): a pair is reported
iff the similarity passes, both control-flow words are longer than 8,
and the NEWLY ingested function's name is not `__init__` (the code never
checks the earlier function's name). -/
def Unnamed.spec_scan_matches_flow (fs : List Unnamed.TokenizedFunction)
    (minimum : Nat) : List Unnamed.MatchReport :=
  (List.range fs.length).flatMap fun i =>
    match fs[i]? with
    | some f =>
      (fs.take i).filterMap fun g =>
        if minimum ≤ f.similarity_ratio g ∧ 8 < f.flow_word.length ∧
            8 < g.flow_word.length ∧ f.name ≠ "__init__" then
          some ⟨f, g, f.similarity_ratio g⟩
        else none
    | none => []

/-- The C8 output invariant: an emitted record's token span is
non-empty, begins with the anchoring `def` keyword token and ends with
the closing block-close (DEDENT, type 6) token. -/
def spansFunction (r : TokenizedFunction) : Prop :=
  ∃ d rest, r.tokens = d :: rest ∧ d.string = "def" ∧
    ∃ cl, r.tokens.getLast? = some cl ∧ cl.type = 6

/-- Inductive invariant of the `parse_functions` loop: the persistent
`indent` values are `0` (outside), `-1` (awaiting body open) or `≥ 2`
(inside a body); whenever a function is being buffered the buffer starts
with its `def` token; and every record emitted so far spans a function. -/
def pfInvariant (st : PFState) : Prop :=
  (st.indent = 0 ∨ st.indent = -1 ∨ 2 ≤ st.indent) ∧
  ((st.indent = -1 ∨ 2 ≤ st.indent) →
    ∃ d rest, st.parsed_tokens = d :: rest ∧ d.string = "def") ∧
  ∀ r ∈ st.functions, spansFunction r

/-- Shorthand for a token record on line 1. -/
def tok (ty : Nat) (s : String) : TokenInfo :=
  ⟨ty, s, 1⟩

/-- Header tokens `def f ( ) :` shared by the example functions. -/
def hdrToks : List TokenInfo :=
  [tok 1 "def", tok 1 "f", tok 54 "(", tok 54 ")", tok 54 ":"]

/-- Example function A: four `if` keywords. -/
def toksA : List TokenInfo :=
  hdrToks ++ List.replicate 4 (tok 1 "if") ++ [tok 6 ""]

/-- Example function B: like A plus two `for` keywords. -/
def toksB : List TokenInfo :=
  hdrToks ++ List.replicate 4 (tok 1 "if") ++ List.replicate 2 (tok 1 "for") ++ [tok 6 ""]

/-- Example function C: like A plus four `for` keywords. -/
def toksC : List TokenInfo :=
  hdrToks ++ List.replicate 4 (tok 1 "if") ++ List.replicate 4 (tok 1 "for") ++ [tok 6 ""]

/-- A copy of `toksA` with the function identifier spelled differently
(same token category everywhere, no keyword changed). -/
def toksA2 : List TokenInfo :=
  [tok 1 "def", tok 1 "renamed", tok 54 "(", tok 54 ")", tok 54 ":"] ++
    List.replicate 4 (tok 1 "if") ++ [tok 6 ""]

/-- The record `TokenizedFunction("a.py", def_token, toksA)` constructs. -/
def recA : TokenizedFunction :=
  ⟨"a.py", 1, "f", [], 5, toksA⟩

/-- The record built over `toksB`. -/
def recB : TokenizedFunction :=
  ⟨"a.py", 1, "f", [], 7, toksB⟩

/-- The record built over `toksC`. -/
def recC : TokenizedFunction :=
  ⟨"a.py", 1, "f", [], 9, toksC⟩

/-- The record built over `toksA2`. -/
def recA2 : TokenizedFunction :=
  ⟨"b.py", 1, "renamed", [], 5, toksA2⟩

/-- A token stream with a nested `def` inside the body of `f`. -/
def nestedToks : List TokenInfo :=
  [tok 1 "def", tok 1 "f", tok 54 "(", tok 54 ")", tok 54 ":", tok 4 "\n",
   tok 5 "    ", tok 1 "def", tok 1 "g", tok 54 "(", tok 54 ")", tok 54 ":", tok 4 "\n",
   tok 5 "        ", tok 1 "pass", tok 4 "\n", tok 6 "", tok 6 ""]

/-- The single record `parse_functions` emits for `nestedToks`: the
nested definition of `g` is absorbed into `f`'s span. -/
def nestedRec : TokenizedFunction :=
  ⟨"n.py", 1, "f", [], 3, nestedToks⟩

/-- Tokens of `def f:` followed by a body — a malformed header with no
parenthesis, which `parse_function_header` cannot parse. -/
def badToks : List TokenInfo :=
  [tok 1 "def", tok 1 "f", tok 54 ":", tok 4 "\n", tok 5 "    ",
   tok 1 "pass", tok 4 "\n", tok 6 ""]

/-- Tokens of a well-formed function `f` with three `if`s. -/
def funFToks : List TokenInfo :=
  [tok 1 "def", tok 1 "f", tok 54 "(", tok 54 ")", tok 54 ":", tok 4 "\n",
   tok 5 "    ", tok 1 "if", tok 1 "if", tok 1 "if", tok 4 "\n", tok 6 ""]

/-- Tokens of `g`, structurally identical to `f`. -/
def funGToks : List TokenInfo :=
  [tok 1 "def", tok 1 "g", tok 54 "(", tok 54 ")", tok 54 ":", tok 4 "\n",
   tok 5 "    ", tok 1 "if", tok 1 "if", tok 1 "if", tok 4 "\n", tok 6 ""]

/-- A well-formed file containing the duplicate pair `f`, `g`. -/
def goodToks : List TokenInfo :=
  funFToks ++ funGToks

/-- The record extracted for `f` from `goodToks`. -/
def goodF : TokenizedFunction :=
  ⟨"good.py", 1, "f", [], 4, funFToks⟩

/-- The record extracted for `g` from `goodToks`. -/
def goodG : TokenizedFunction :=
  ⟨"good.py", 1, "g", [], 4, funGToks⟩

/-- Tokens of a `__init__` method with nine `if` keywords. -/
def initToks : List TokenInfo :=
  [tok 1 "def", tok 1 "__init__", tok 54 "(", tok 1 "self", tok 54 ")", tok 54 ":",
   tok 4 "\n", tok 5 "    "] ++ List.replicate 9 (tok 1 "if") ++ [tok 4 "\n", tok 6 ""]

/-- Tokens of `foo`, with the same control flow as `initToks`. -/
def fooToks : List TokenInfo :=
  [tok 1 "def", tok 1 "foo", tok 54 "(", tok 1 "self", tok 54 ")", tok 54 ":",
   tok 4 "\n", tok 5 "    "] ++ List.replicate 9 (tok 1 "if") ++ [tok 4 "\n", tok 6 ""]

/-- The unnamed.py record for `initToks`. -/
def uInit : Unnamed.TokenizedFunction :=
  ⟨"u.py", 1, "__init__", ["self"], "222222222"⟩

/-- The unnamed.py record for `fooToks`. -/
def uFoo : Unnamed.TokenizedFunction :=
  ⟨"u.py", 1, "foo", ["self"], "222222222"⟩
theorem editDist_nil_left (b : List Char) : editDist [] b = b.length := by
  induction b with
  | nil => simp [editDist]
  | cons y ys ih =>
    unfold editDist at ih ⊢
    rw [levenshtein_nil_cons, ih]
    simp [dedupCost, Nat.add_comm]

theorem editDist_nil_right (a : List Char) : editDist a [] = a.length := by
  induction a with
  | nil => simp [editDist]
  | cons x xs ih =>
    unfold editDist at ih ⊢
    rw [levenshtein_cons_nil, ih]
    simp [dedupCost, Nat.add_comm]

theorem editDist_cons_cons (x : Char) (xs : List Char) (y : Char) (ys : List Char) :
    editDist (x :: xs) (y :: ys) =
      min (1 + editDist xs (y :: ys))
        (min (1 + editDist (x :: xs) ys)
          ((if x = y then 0 else 2) + editDist xs ys)) := by
  simp [editDist, levenshtein_cons_cons, dedupCost]

/-- The distance from a list to itself is zero. -/
theorem editDist_self (a : List Char) : editDist a a = 0 := by
  induction a with
  | nil => simp [editDist]
  | cons x xs ih =>
    have h := editDist_cons_cons x xs x xs
    simp [ih] at h
    omega

/-- The weighted edit distance is symmetric. -/
theorem editDist_symm (a b : List Char) : editDist a b = editDist b a := by
  induction a generalizing b with
  | nil => rw [editDist_nil_left, editDist_nil_right]
  | cons x xs ihx =>
    induction b with
    | nil => rw [editDist_nil_left, editDist_nil_right]
    | cons y ys ihy =>
      rw [editDist_cons_cons, editDist_cons_cons, ihx (y :: ys), ihx ys, ← ihy]
      have : (if x = y then 0 else 2) = (if y = x then 0 else 2) := by
        by_cases h : x = y <;> simp [h, Ne.symm, eq_comm]
      rw [this, min_left_comm]

/-- The weighted edit distance never exceeds the sum of the lengths. -/
theorem editDist_le_sum (a b : List Char) : editDist a b ≤ a.length + b.length := by
  induction a generalizing b with
  | nil => rw [editDist_nil_left]; simp
  | cons x xs ih =>
    cases b with
    | nil => rw [editDist_nil_right]; simp
    | cons y ys =>
      rw [editDist_cons_cons]
      have h1 : editDist xs (y :: ys) ≤ xs.length + (y :: ys).length := ih (y :: ys)
      have h2 : min (1 + editDist (x :: xs) ys)
          ((if x = y then 0 else 2) + editDist xs ys) ≤
          (if x = y then 0 else 2) + editDist xs ys := min_le_right _ _
      have h3 : editDist xs ys ≤ xs.length + ys.length := ih ys
      simp only [List.length_cons]
      have := min_le_left (1 + editDist xs (y :: ys))
        (min (1 + editDist (x :: xs) ys) ((if x = y then 0 else 2) + editDist xs ys))
      simp only [List.length_cons] at h1
      omega

/-- Division helper: `(k * b + r) / b = k` when `r < b`. -/
theorem mul_add_div_eq_of_lt (b k r : ℕ) (hr : r < b) : (k * b + r) / b = k := by
  have hb : 0 < b := lt_of_le_of_lt (Nat.zero_le r) hr
  rw [Nat.mul_comm k b, Nat.mul_add_div hb, Nat.div_eq_of_lt hr, Nat.add_zero]

theorem fuzz_ratio_self (a : String) : fuzz_ratio a a = 100 := by
  unfold fuzz_ratio
  by_cases h : a.length + a.length = 0
  · simp [h]
  · simp only [h, if_false, editDist_self, Nat.sub_zero]
    have hT : 0 < a.length + a.length := Nat.pos_of_ne_zero h
    have heq : 200 * (a.length + a.length) + (a.length + a.length) =
        100 * (2 * (a.length + a.length)) + (a.length + a.length) := by ring
    rw [heq, mul_add_div_eq_of_lt _ _ _ (by omega)]

theorem fuzz_ratio_comm (a b : String) : fuzz_ratio a b = fuzz_ratio b a := by
  unfold fuzz_ratio
  rw [editDist_symm, Nat.add_comm b.length a.length]

theorem fuzz_ratio_le_100 (a b : String) : fuzz_ratio a b ≤ 100 := by
  unfold fuzz_ratio
  by_cases h : a.length + b.length = 0
  · simp [h]
  · simp only [h, if_false]
    set T := a.length + b.length with hT
    set D := editDist a.toList b.toList with hD
    have hTpos : 0 < T := Nat.pos_of_ne_zero h
    have hle : T - D ≤ T := Nat.sub_le _ _
    have hnum : 200 * (T - D) + T ≤ 100 * (2 * T) + (2 * T - 1) := by omega
    calc (200 * (T - D) + T) / (2 * T) ≤ (100 * (2 * T) + (2 * T - 1)) / (2 * T) :=
          Nat.div_le_div_right hnum
      _ = 100 := mul_add_div_eq_of_lt _ _ _ (by omega)

/-- The natural-number implementation agrees with the spec's formula
`round(100 * (T - D) / T)` stated over the rationals. -/
theorem fuzz_ratio_eq_round (a b : String) (h : 0 < a.length + b.length) :
    (fuzz_ratio a b : ℤ) =
      round ((100 * (((a.length + b.length : ℕ) : ℚ) -
        (editDist a.toList b.toList : ℚ))) / ((a.length + b.length : ℕ) : ℚ)) := by
  set T := a.length + b.length with hT
  set D := editDist a.toList b.toList with hD
  have hDT : D ≤ T := by
    have := editDist_le_sum a.toList b.toList
    simp only [hT, hD]
    simpa using this
  have hTne : (T : ℚ) ≠ 0 := Nat.cast_ne_zero.mpr h.ne'
  have hcast : ((T : ℕ) : ℚ) - (D : ℚ) = ((T - D : ℕ) : ℚ) := by
    push_cast [hDT]; ring
  rw [hcast, round_eq]
  have harith : (100 * ((T - D : ℕ) : ℚ)) / (T : ℚ) + 1 / 2 =
      ((200 * (T - D) + T : ℕ) : ℚ) / ((2 * T : ℕ) : ℚ) := by
    field_simp
    ring
  rw [harith]
  have hnonneg : (0 : ℚ) ≤ ((200 * (T - D) + T : ℕ) : ℚ) / ((2 * T : ℕ) : ℚ) := by
    positivity
  have hfloor : ⌊((200 * (T - D) + T : ℕ) : ℚ) / ((2 * T : ℕ) : ℚ)⌋ =
      (((200 * (T - D) + T) / (2 * T) : ℕ) : ℤ) := by
    rw [← Int.natCast_floor_eq_floor hnonneg, Nat.floor_div_eq_div]
  rw [hfloor]
  unfold fuzz_ratio
  rw [if_neg (by omega : ¬ a.length + b.length = 0)]
/-- Spec-side characterization of the shared scanning loop: the emitted
matches are, for each position `i` in discovery order, the emissions of
record `i` against exactly the records before it (the `seen` prefix). -/
theorem scanPairs_eq {A M : Type} (emit : A → A → Option M) (seen rest : List A) :
    scanPairs emit seen rest =
      (List.range rest.length).flatMap fun i =>
        match rest[i]? with
        | some f => (seen ++ rest.take i).filterMap (emit f)
        | none => [] := by
  induction rest generalizing seen with
  | nil => simp [scanPairs]
  | cons f rest ih =>
    show seen.filterMap (emit f) ++ scanPairs emit (seen ++ [f]) rest = _
    rw [ih (seen ++ [f]), List.length_cons, List.range_succ_eq_map,
      List.flatMap_cons, List.flatMap_map]
    simp only [List.getElem?_cons_zero, List.take_zero, List.append_nil]
    congr 1
    apply congrArg
    funext i
    cases h : rest[i]? with
    | none => simp [Function.comp, h]
    | some x => simp [Function.comp, h, List.take_succ_cons, List.append_assoc]

/-- The inner-loop emission of the keyword-count scanner, rephrased with
the conjuncts in the spec's order. -/
theorem emitMatch_eq_spec (ms mk : Nat) (f g : TokenizedFunction) :
    emitMatch ms mk f g =
      if ms ≤ f.similarity_ratio g ∧ mk ≤ f.kw_count ∧ mk ≤ g.kw_count then
        some ⟨f, g, f.similarity_ratio g⟩
      else none := by
  simp only [emitMatch]
  exact if_congr (by tauto) rfl rfl

/-- The inner-loop emission of the flow-length scanner, with the nested
`__init__` check flattened into one condition. -/
theorem emitMatch_eq_flow_spec (m : Nat) (f g : Unnamed.TokenizedFunction) :
    Unnamed.emitMatch m f g =
      if m ≤ f.similarity_ratio g ∧ 8 < f.flow_word.length ∧
          8 < g.flow_word.length ∧ f.name ≠ "__init__" then
        some ⟨f, g, f.similarity_ratio g⟩
      else none := by
  unfold Unnamed.emitMatch
  by_cases h1 : m ≤ f.similarity_ratio g ∧ 8 < f.flow_word.length ∧
      8 < g.flow_word.length
  · rw [if_pos h1]
    by_cases h2 : f.name ≠ "__init__"
    · rw [if_pos h2, if_pos ⟨h1.1, h1.2.1, h1.2.2, h2⟩]
    · rw [if_neg h2, if_neg (by tauto)]
  · rw [if_neg h1, if_neg (by tauto)]

/-- A record built by `TokenizedFunction.__init__` stores exactly the
buffered token span. -/
theorem mkTokenizedFunction_tokens {url : String} {d : TokenInfo}
    {p : List TokenInfo} {fn : TokenizedFunction}
    (h : mkTokenizedFunction url d p = .ok fn) : fn.tokens = p := by
  unfold mkTokenizedFunction at h
  cases hph : parse_function_header p with
  | none => rw [hph] at h; exact absurd h (by simp)
  | some pa =>
    obtain ⟨n, a⟩ := pa
    rw [hph] at h
    simp only [Except.ok.injEq] at h
    rw [← h]

/-- Tokens related by `sameShapeTok` encode to the same shape symbol. -/
theorem tokenChar_congr {t t' : TokenInfo} (h : sameShapeTok t t') :
    tokenChar t = tokenChar t' := by
  obtain ⟨hty, hkw⟩ := h
  unfold tokenChar
  rw [← hty]
  by_cases h1 : t.type = 1
  · rw [if_pos h1, if_pos h1, hkw h1]
  · rw [if_neg h1, if_neg h1]

/-- The loop state before the first token satisfies the invariant. -/
theorem pfInvariant_init : pfInvariant ⟨0, none, [], []⟩ := by
  refine ⟨Or.inl rfl, fun h => absurd h (by norm_num), fun r hr => absurd hr (by simp)⟩

/-- One loop iteration preserves the extractor invariant. -/
theorem pfStep_invariant {url : String} {st : PFState} {t : TokenInfo} {st' : PFState}
    (hinv : pfInvariant st) (hstep : pfStep url st t = .ok st') : pfInvariant st' := by
  obtain ⟨hind, hparsed, hfuns⟩ := hinv
  unfold pfStep at hstep
  by_cases h1 : st.indent = 0 ∧ t.string = "def"
  · have hst1 : pfIndentStep st t =
        { st with def_token := some t, parsed_tokens := [], indent := -1 } := by
      unfold pfIndentStep; rw [if_pos h1]
    rw [hst1] at hstep
    dsimp only at hstep
    rw [if_neg (by norm_num), if_pos (by norm_num)] at hstep
    simp only [Except.ok.injEq] at hstep
    subst hstep
    refine ⟨Or.inr (Or.inl rfl), fun _ => ⟨t, [], rfl, h1.2⟩, ?_⟩
    dsimp only
    exact hfuns
  · by_cases h2 : st.indent = -1 ∧ t.type = 5
    · have hst1 : pfIndentStep st t = { st with indent := 2 } := by
        unfold pfIndentStep; rw [if_neg h1, if_pos h2]
      rw [hst1] at hstep
      dsimp only at hstep
      rw [if_neg (by norm_num), if_pos (by norm_num)] at hstep
      simp only [Except.ok.injEq] at hstep
      subst hstep
      obtain ⟨d, rest, hp, hd⟩ := hparsed (Or.inl h2.1)
      refine ⟨Or.inr (Or.inr (by norm_num)), fun _ => ⟨d, rest ++ [t], ?_, hd⟩, ?_⟩
      · dsimp only; rw [hp]; rfl
      · dsimp only; exact hfuns
    · by_cases h3 : st.indent > 1 ∧ t.type = 6
      · have hst1 : pfIndentStep st t = { st with indent := st.indent - 1 } := by
          unfold pfIndentStep; rw [if_neg h1, if_neg h2, if_pos h3]
        rw [hst1] at hstep
        dsimp only at hstep
        obtain ⟨d0, rest, hp, hd⟩ := hparsed (Or.inr (by omega))
        by_cases h4 : st.indent = 2
        · rw [if_pos ⟨by omega, h3.2⟩] at hstep
          cases hdt : st.def_token with
          | none => rw [hdt] at hstep; exact absurd hstep (by simp)
          | some d =>
            rw [hdt] at hstep
            dsimp only at hstep
            cases hmk : mkTokenizedFunction url d (st.parsed_tokens ++ [t]) with
            | error e => rw [hmk] at hstep; exact absurd hstep (by simp)
            | ok fn =>
              rw [hmk] at hstep
              simp only [Except.ok.injEq] at hstep
              subst hstep
              have htok : fn.tokens = st.parsed_tokens ++ [t] :=
                mkTokenizedFunction_tokens hmk
              refine ⟨Or.inl rfl, fun h => absurd h (by norm_num), ?_⟩
              dsimp only
              intro r hr
              rcases List.mem_append.mp hr with hr | hr
              · exact hfuns r hr
              · have hrfn : r = fn := by simpa using hr
                subst hrfn
                refine ⟨d0, rest ++ [t], ?_, hd, t, ?_, h3.2⟩
                · rw [htok, hp]; rfl
                · rw [htok]; exact List.getLast?_concat ..
        · rw [if_neg (show ¬(st.indent - 1 = 1 ∧ t.type = 6) from by omega)] at hstep
          rw [if_pos (show st.indent - 1 > 0 ∨ st.indent - 1 = -1 from by omega)] at hstep
          simp only [Except.ok.injEq] at hstep
          subst hstep
          refine ⟨Or.inr (Or.inr (show (2:Int) ≤ st.indent - 1 from by omega)),
            fun _ => ⟨d0, rest ++ [t], ?_, hd⟩, ?_⟩
          · dsimp only; rw [hp]; rfl
          · dsimp only; exact hfuns
      · by_cases h4 : st.indent > 1 ∧ t.type = 5
        · have hst1 : pfIndentStep st t = { st with indent := st.indent + 1 } := by
            unfold pfIndentStep; rw [if_neg h1, if_neg h2, if_neg h3, if_pos h4]
          rw [hst1] at hstep
          dsimp only at hstep
          rw [if_neg (show ¬(st.indent + 1 = 1 ∧ t.type = 6) from by omega)] at hstep
          rw [if_pos (show st.indent + 1 > 0 ∨ st.indent + 1 = -1 from by omega)] at hstep
          simp only [Except.ok.injEq] at hstep
          subst hstep
          obtain ⟨d, rest, hp, hd⟩ := hparsed (Or.inr (by omega))
          refine ⟨Or.inr (Or.inr (show (2:Int) ≤ st.indent + 1 from by omega)),
            fun _ => ⟨d, rest ++ [t], ?_, hd⟩, ?_⟩
          · dsimp only; rw [hp]; rfl
          · dsimp only; exact hfuns
        · have hst1 : pfIndentStep st t = st := by
            unfold pfIndentStep; rw [if_neg h1, if_neg h2, if_neg h3, if_neg h4]
          rw [hst1] at hstep
          rw [if_neg (by rcases hind with h | h | h <;> simp [h]; omega)] at hstep
          by_cases h5 : st.indent > 0 ∨ st.indent = -1
          · rw [if_pos h5] at hstep
            simp only [Except.ok.injEq] at hstep
            subst hstep
            have hcase : st.indent = -1 ∨ 2 ≤ st.indent := by
              rcases hind with h | h | h <;> rcases h5 with h5 | h5 <;> omega
            obtain ⟨d, rest, hp, hd⟩ := hparsed hcase
            refine ⟨?_, fun _ => ⟨d, rest ++ [t], ?_, hd⟩, ?_⟩
            · dsimp only; exact hind
            · dsimp only; rw [hp]; rfl
            · dsimp only; exact hfuns
          · rw [if_neg h5] at hstep
            simp only [Except.ok.injEq] at hstep
            subst hstep
            exact ⟨hind, hparsed, hfuns⟩

/-- Folding the loop body preserves the extractor invariant. -/
theorem foldlM_pfStep_invariant (url : String) (ts : List TokenInfo)
    (st st' : PFState) (hinv : pfInvariant st)
    (h : ts.foldlM (pfStep url) st = .ok st') : pfInvariant st' := by
  induction ts generalizing st with
  | nil =>
    simp only [List.foldlM_nil] at h
    exact Except.ok.inj h ▸ hinv
  | cons t ts ih =>
    rw [List.foldlM_cons] at h
    cases hs : pfStep url st t with
    | error e =>
      rw [hs] at h
      exact Except.noConfusion h
    | ok st1 =>
      rw [hs] at h
      exact ih st1 (pfStep_invariant ⟨hinv.1, hinv.2.1, hinv.2.2⟩ hs) h

/-- Function-level form of `emitMatch_eq_spec`. -/
theorem emitMatch_funext (ms mk : Nat) (f : TokenizedFunction) :
    emitMatch ms mk f = fun g =>
      if ms ≤ f.similarity_ratio g ∧ mk ≤ f.kw_count ∧ mk ≤ g.kw_count then
        some ⟨f, g, f.similarity_ratio g⟩
      else none :=
  funext fun g => emitMatch_eq_spec ms mk f g

/-- Function-level form of `emitMatch_eq_flow_spec`. -/
theorem emitMatch_flow_funext (m : Nat) (f : Unnamed.TokenizedFunction) :
    Unnamed.emitMatch m f = fun g =>
      if m ≤ f.similarity_ratio g ∧ 8 < f.flow_word.length ∧
          8 < g.flow_word.length ∧ f.name ≠ "__init__" then
        some ⟨f, g, f.similarity_ratio g⟩
      else none :=
  funext fun g => emitMatch_eq_flow_spec m f g

/-- C1: for every input sequence of records, `find_duplicates` compares
each newly ingested record only against records ingested strictly before
it (never itself, never later records), appends it to the seen
collection after comparing, and emits exactly the pairs passing the
similarity threshold and the keyword-count filter for both records, in
discovery order (`spec_scan_matches`); in particular, for the three
functions built over `toksA`, `toksB`, `toksC` ingested in that order
(similarities 91, 92, 83 against threshold 85, all keyword counts ≥ 4)
the reported matches are exactly (B, A) and (C, B). -/
theorem duplicate_scanner_correct :
    (∀ fs ms mk, find_duplicates fs ms mk = spec_scan_matches fs ms mk) ∧
    (mkTokenizedFunction "a.py" (tok 1 "def") toksA = .ok recA ∧
     mkTokenizedFunction "a.py" (tok 1 "def") toksB = .ok recB ∧
     mkTokenizedFunction "a.py" (tok 1 "def") toksC = .ok recC ∧
     recB.similarity_ratio recA = 91 ∧ recC.similarity_ratio recB = 92 ∧
     recC.similarity_ratio recA = 83 ∧
     find_duplicates [recA, recB, recC] 85 4 =
       [⟨recB, recA, 91⟩, ⟨recC, recB, 92⟩]) := by
  constructor
  · intro fs ms mk
    unfold find_duplicates spec_scan_matches
    rw [scanPairs_eq]
    apply congrArg
    funext i
    cases h : fs[i]? with
    | none => rfl
    | some f => simp [h, emitMatch_funext]
  · exact ⟨rfl, rfl, rfl, by decide, by decide, by decide, by decide⟩

/-- C2: for every pair of shape strings with `T = len(a) + len(b) > 0`,
the scorer returns an integer in [0, 100] equal to
`round(100 * (T - D) / T)` where `D` is the weighted edit distance with
unit-cost insertion/deletion and cost-2 substitution; in particular
`similarity("212", "213") = 67`. -/
theorem similarity_scorer_formula (a b : String) (h : 0 < a.length + b.length) :
    (fuzz_ratio a b ≤ 100 ∧
      (fuzz_ratio a b : ℤ) =
        round ((100 * (((a.length + b.length : ℕ) : ℚ) -
          (editDist a.toList b.toList : ℚ))) / ((a.length + b.length : ℕ) : ℚ))) ∧
    fuzz_ratio "212" "213" = 67 :=
  ⟨⟨fuzz_ratio_le_100 a b, fuzz_ratio_eq_round a b h⟩, by decide⟩

theorem similarity_scorer_formula_witness :
    (fuzz_ratio "212" "213" ≤ 100 ∧
      (fuzz_ratio "212" "213" : ℤ) =
        round ((100 * ((("212".length + "213".length : ℕ) : ℚ) -
          (editDist "212".toList "213".toList : ℚ))) /
          (("212".length + "213".length : ℕ) : ℚ))) ∧
    fuzz_ratio "212" "213" = 67 :=
  similarity_scorer_formula "212" "213" (by decide)

/-- C3: the similarity of any shape string with itself is 100, including
the empty string; the control-flow-only encoding of a function with no
control-flow keywords is the empty string (whose self-similarity is
100 by the first two parts). -/
theorem similarity_self_100 :
    (∀ a, fuzz_ratio a a = 100) ∧ fuzz_ratio "" "" = 100 ∧
    (∀ ts : List TokenInfo, (∀ t ∈ ts, t.string ∉ Unnamed.allowed) →
      Unnamed.tokens_to_chars (Unnamed.filter_flow_tokens ts) = "") := by
  refine ⟨fuzz_ratio_self, fuzz_ratio_self "", fun ts h => ?_⟩
  unfold Unnamed.tokens_to_chars Unnamed.filter_flow_tokens
  have hnil : ts.filter (fun t => t.string ∈ Unnamed.allowed) = [] := by
    rw [List.filter_eq_nil_iff]
    intro t ht
    simpa using h t ht
  rw [hnil]
  rfl

theorem similarity_self_100_witness :
    Unnamed.tokens_to_chars (Unnamed.filter_flow_tokens hdrToks) = "" :=
  similarity_self_100.2.2 hdrToks (by decide)

/-- C4 (the code violates the claim): `load_functions` has no
`try/except`, so a file whose read or tokenization fails aborts the
whole corpus scan before any later file is processed — here the
well-formed duplicate pair in `good.py` is never reported, although
scanning `good.py` alone produces both records and the pair. -/
theorem file_error_aborts_scan :
    load_functions [("bad.py", .error "FileReadError"), ("good.py", .ok goodToks)] =
      .error "FileReadError" ∧
    load_functions [("good.py", .ok goodToks)] = .ok [goodF, goodG] ∧
    find_duplicates [goodF, goodG] 85 4 = [⟨goodG, goodF, 100⟩] :=
  ⟨rfl, rfl, by decide⟩

/-- C5 (counterexample to the claim as stated): with the earlier-seen
function named `__init__` and the newly seen one named `foo`, both with
flow words of length 9 and similarity 100 ≥ 75, the pair IS reported —
the code only checks the NEW function's name against `__init__`,
contradicting the claim's "neither f's name nor g's name". -/
theorem flow_filter_counterexample :
    Unnamed.mkTokenizedFunction "u.py" (tok 1 "def") initToks = .ok uInit ∧
    Unnamed.mkTokenizedFunction "u.py" (tok 1 "def") fooToks = .ok uFoo ∧
    uInit.name = "__init__" ∧ 8 < uInit.flow_word.length ∧
    8 < uFoo.flow_word.length ∧ 75 ≤ uFoo.similarity_ratio uInit ∧
    Unnamed.find_duplicates [uInit, uFoo] 75 = [⟨uFoo, uInit, 100⟩] :=
  ⟨rfl, rfl, rfl, by decide, by decide, by decide, by decide⟩

/-- C5 as amended: under the flow-length policy a pair (f, g) with f
newly ingested is reported iff similarity ≥ threshold (default 75 when
no second numeric argument is given), both control-flow shape strings
are longer than 8, and the NEWLY INGESTED function's name is not
`__init__` (the earlier function's name is not checked). -/
theorem flow_scanner_amended :
    (∀ fs minimum, Unnamed.find_duplicates fs minimum =
      Unnamed.spec_scan_matches_flow fs minimum) ∧
    (∀ prog path corpus, Unnamed.main [prog, path] corpus =
      some (Unnamed.find_duplicates corpus 75)) := by
  constructor
  · intro fs minimum
    unfold Unnamed.find_duplicates Unnamed.spec_scan_matches_flow
    rw [scanPairs_eq]
    apply congrArg
    funext i
    cases h : fs[i]? with
    | none => rfl
    | some f => simp [h, emitMatch_flow_funext]
  · intro prog path corpus
    rfl

/-- C6: the full-shape encoding emits exactly one symbol per token
(`len(shape) = len(tokens)`), the keyword symbols are pairwise distinct
and disjoint from every category symbol `chr(n)` (token category numbers
are below 256), and two token sequences with identical category/keyword
structure but different identifier or literal spellings yield identical
shape strings and similarity 100. -/
theorem shape_encoding_spec :
    (∀ ts : List TokenInfo, (create_token_type_word ts).length = ts.length) ∧
    ((KW_DICT.map Prod.snd).Nodup ∧
      ∀ n < 256, Char.ofNat n ∉ KW_DICT.map Prod.snd) ∧
    (∀ ts ts' : List TokenInfo, List.Forall₂ sameShapeTok ts ts' →
      create_token_type_word ts = create_token_type_word ts' ∧
      ∀ f g : TokenizedFunction, f.tokens = ts → g.tokens = ts' →
        f.similarity_ratio g = 100) := by
  refine ⟨?_, ⟨by decide, by decide⟩, ?_⟩
  · intro ts
    simp [create_token_type_word, String.length]
  · intro ts ts' hrel
    have hword : create_token_type_word ts = create_token_type_word ts' := by
      unfold create_token_type_word
      have hmap : ts.map tokenChar = ts'.map tokenChar := by
        induction hrel with
        | nil => rfl
        | cons h _ ih => simp only [List.map_cons, ih, tokenChar_congr h]
      rw [hmap]
    refine ⟨hword, fun f g hf hg => ?_⟩
    unfold TokenizedFunction.similarity_ratio
    rw [hf, hg, hword, fuzz_ratio_self]

theorem shape_encoding_spec_witness :
    create_token_type_word toksA = create_token_type_word toksA2 ∧
    recA.similarity_ratio recA2 = 100 := by
  have h := shape_encoding_spec.2.2 toksA toksA2 (by decide)
  exact ⟨h.1, h.2 recA recA2 rfl rfl⟩

/-- C7: the similarity score is symmetric, on raw shape strings and for
both record variants. -/
theorem similarity_symmetric :
    (∀ a b, fuzz_ratio a b = fuzz_ratio b a) ∧
    (∀ f g : TokenizedFunction, f.similarity_ratio g = g.similarity_ratio f) ∧
    (∀ f g : Unnamed.TokenizedFunction,
      f.similarity_ratio g = g.similarity_ratio f) :=
  ⟨fuzz_ratio_comm, fun _ _ => fuzz_ratio_comm _ _, fun _ _ => fuzz_ratio_comm _ _⟩

/-- C8: every record emitted by the boundary extractor has a non-empty
token span beginning with the `def` keyword token anchored at scan depth
0 and ending with the single terminating block-close token; nested
block-open/close pairs only adjust the depth counter, so for the stream
`nestedToks` (a `def g` nested inside `def f`) exactly one record is
emitted and its span is the whole stream, nested `def` included. -/
theorem extractor_spans :
    (∀ url ts fs, parse_functions url ts = .ok fs → ∀ r ∈ fs, spansFunction r) ∧
    (parse_functions "n.py" nestedToks = .ok [nestedRec] ∧
      nestedRec.tokens = nestedToks) := by
  constructor
  · intro url ts fs h r hr
    unfold parse_functions at h
    cases hf : ts.foldlM (pfStep url) ⟨0, none, [], []⟩ with
    | error e => rw [hf] at h; exact absurd h (by simp [Except.map])
    | ok st =>
      rw [hf] at h
      simp only [Except.map] at h
      have hfs : st.functions = fs := Except.ok.inj h
      have hinv := foldlM_pfStep_invariant url ts _ st pfInvariant_init hf
      exact hinv.2.2 r (hfs ▸ hr)
  · exact ⟨rfl, rfl⟩

theorem extractor_spans_witness : spansFunction nestedRec :=
  extractor_spans.1 "n.py" nestedToks [nestedRec] rfl nestedRec (by simp)

/-- C9 (the code violates the claim): a function whose header has no
parenthesis (`def f:`) makes `parse_function_header` return `None`;
`TokenizedFunction.__init__` then subscripts `None` and raises
`TypeError`, aborting extraction and the whole scan — the well-formed
duplicate pair in the other file is never reported. -/
theorem header_failure_aborts :
    parse_function_header badToks = none ∧
    parse_functions "bad.py" badToks =
      .error "TypeError: NoneType object is not subscriptable" ∧
    load_functions [("bad.py", .ok badToks), ("good.py", .ok goodToks)] =
      .error "TypeError: NoneType object is not subscriptable" :=
  ⟨rfl, rfl, rfl⟩

/-- C10: the seen collection distinguishes records by identity (the
stored class defines no `__eq__`/`__hash__`), so structurally identical
records never collapse: ingesting the same record twice reports the
pair (similarity 100 passes any threshold ≤ 100 and the filter), and
ingesting it three times compares each later copy against every earlier
copy separately, yielding 3 = C(3,2) reports. -/
theorem seen_identity_no_collapse (f : TokenizedFunction) (ms mk : Nat)
    (hkw : mk ≤ f.kw_count) (hms : ms ≤ 100) :
    find_duplicates [f, f] ms mk = [⟨f, f, 100⟩] ∧
    (find_duplicates [f, f, f] ms mk).length = 3 := by
  have hself : f.similarity_ratio f = 100 := fuzz_ratio_self _
  have hemit : emitMatch ms mk f f = some ⟨f, f, 100⟩ := by
    simp only [emitMatch, hself]
    rw [if_pos ⟨hms, hkw, hkw⟩]
  refine ⟨?_, ?_⟩ <;> simp [find_duplicates, scanPairs, hemit]

theorem seen_identity_no_collapse_witness :
    find_duplicates [recA, recA] 85 4 = [⟨recA, recA, 100⟩] ∧
    (find_duplicates [recA, recA, recA] 85 4).length = 3 :=
  seen_identity_no_collapse recA 85 4 (by decide) (by decide)
